import Mathlib

/-!
Verification of the `gsl::span` view type (include/span.h): a shallow
embedding of its storage model, constructors, element access and sub-view
operations, with theorems about the contract checks (`Expects`) each
operation performs.

Modelling choices:
* A C++ pointer is `Option Int`: `none` is the null pointer, `some a` points
  at abstract address `a`, measured in element units.
* `Expects cond` models the contract-check facility: it yields `ok` when the
  condition holds and signals `ContractViolation` otherwise.
* `span<ElementType, Extent>` becomes `Span E` for `E : Int`, with
  `dynamic_extent = -1` as in the source.  The `extent_type<Extent>`
  specialisations become `extent_ctor`: for a fixed extent the constructor
  checks `size == Extent` and `size()` returns the compile-time `Extent`;
  for the dynamic extent it checks `size >= 0` and stores the size.
* C++ member initialisers run before the constructor body, so
  `span(pointer, index_type)` runs the storage/extent check first and the
  body's `Expects` second; the embedding keeps that order.
-/

namespace GSL

/-- `constexpr const std::ptrdiff_t dynamic_extent = -1;` -/
def dynamic_extent : Int := -1

/-- A C++ object pointer: `none` is `nullptr`, `some a` an address in
element units. -/
abbrev Ptr := Option Int

/-- Pointer arithmetic `p + k` (element units); null stays null. -/
def Ptr.add : Ptr → Int → Ptr
  | none,   _ => none
  | some a, k => some (a + k)

/-- `std::distance(first, last)` for pointers: `last - first`. Cases with a
null pointer are undefined in C++; the model returns 0 there. -/
def Ptr.distance : Ptr → Ptr → Int
  | some a, some b => b - a
  | _,      _      => 0

/-- Reading the element a pointer refers to, given the memory contents. -/
def Ptr.read {α : Type} (mem : Int → α) : Ptr → Option α
  | none   => none
  | some a => some (mem a)

/-- The single error kind of the library: a failed `Expects` check. -/
inductive ContractViolation : Type where
  | violation
deriving DecidableEq

/-- Outcome of an operation that runs contract checks. -/
abbrev Result (α : Type) : Type := Except ContractViolation α

/-- `Expects(cond)`: proceed when the condition holds, otherwise signal a
contract violation. -/
def Expects (p : Prop) [Decidable p] : Result Unit :=
  if p then Except.ok () else Except.error ContractViolation.violation

/-- `span<ElementType, Extent>`: a data pointer together with the stored
size.  For a fixed extent the stored field is redundant (`size` reads the
compile-time extent `E`); for `E = dynamic_extent` it is the per-instance
count. -/
structure Span (E : Int) where
  data_ : Ptr
  size_ : Int
deriving DecidableEq

/-- `size()`: the compile-time extent for a fixed-extent span, the stored
count for a dynamic-extent one (`extent_type<Extent>::size`). -/
def Span.size {E : Int} (s : Span E) : Int :=
  if E = dynamic_extent then s.size_ else E

/-- `length()` is a synonym of `size()`. -/
def Span.length {E : Int} (s : Span E) : Int := s.size

/-- `data()`: the stored pointer. -/
def Span.data {E : Int} (s : Span E) : Ptr := s.data_

/-- `extent_type<E>::extent_type(index_type size)`:
the dynamic specialisation checks `size >= 0` and stores `size`; a fixed
extent checks `size == Extent` and afterwards reports `Extent`. -/
def extent_ctor (E : Int) (size : Int) : Result Int :=
  if E = dynamic_extent then do
    Expects (0 ≤ size)
    pure size
  else do
    Expects (size = E)
    pure E

/-- `storage_type(pointer data, index_type ext)`: build the extent from the
runtime count, keep the pointer. -/
def storage_mk (E : Int) (ptr : Ptr) (size : Int) : Result (Span E) := do
  let sz ← extent_ctor E size
  pure ⟨ptr, sz⟩

/-- `storage_(ptr, extent_type<N>())`: initialisation from a compile-time
extent tag.  The fixed-to-fixed case is guarded by a `static_assert`
(`N = E`), the dynamic case copies `N`; neither runs a runtime check. -/
def storage_mk_ext (E : Int) (ptr : Ptr) (N : Int) : Span E :=
  if E = dynamic_extent then ⟨ptr, N⟩ else ⟨ptr, E⟩

/-- `span(pointer ptr, index_type count)`: the member initialiser
`storage_(ptr, count)` runs its extent check first, then the body runs
`Expects((!ptr && count == 0) || (ptr && count >= 0))`. -/
def span_mk (E : Int) (ptr : Ptr) (count : Int) : Result (Span E) := do
  let s ← storage_mk E ptr count
  Expects ((ptr = none ∧ count = 0) ∨ (ptr ≠ none ∧ 0 ≤ count))
  pure s

/-- `span(pointer firstElem, pointer lastElem)
      : storage_(firstElem, std::distance(firstElem, lastElem))` —
no body check; only the storage/extent check runs. -/
def span_from_ptrs (E : Int) (firstElem lastElem : Ptr) : Result (Span E) :=
  storage_mk E firstElem (Ptr.distance firstElem lastElem)

/-- `span(element_type(&arr)[N]) : storage_(&arr[0], extent_type<N>())` —
no runtime check; well-formed only for `E = N` or `E = dynamic_extent`
(the extent conversion is guarded by a `static_assert`). -/
def span_from_array (E : Int) (base : Int) (N : Nat) : Span E :=
  storage_mk_ext E (some base) (N : Int)

/-- `operator[](index_type idx)`:
`Expects(idx >= 0 && idx < storage_.size()); return storage_.data()[idx];`
modelled as returning the address of the selected element (a C++
reference). -/
def Span.subscript {E : Int} (s : Span E) (idx : Int) : Result Ptr := do
  Expects (0 ≤ idx ∧ idx < s.size)
  pure (s.data_.add idx)

/-- `operator()(index_type idx)`: delegates to `operator[]`. -/
def Span.callIdx {E : Int} (s : Span E) (idx : Int) : Result Ptr :=
  s.subscript idx

/-- The element at logical index `j` of a view, given the memory contents. -/
def Span.nth {E : Int} {α : Type} (mem : Int → α) (s : Span E) (j : Int) :
    Option α :=
  Ptr.read mem (s.data_.add j)

/-- `first(index_type count)`:
`Expects(count >= 0 && count <= size()); return { data(), count };` —
the returned braces invoke the `(pointer, count)` constructor of the
dynamic-extent span. -/
def Span.first {E : Int} (s : Span E) (count : Int) :
    Result (Span dynamic_extent) := do
  Expects (0 ≤ count ∧ count ≤ s.size)
  span_mk dynamic_extent s.data_ count

/-- `last(index_type count)`:
`Expects(count >= 0 && count <= size());
 return { count == 0 ? data() : data() + (size() - count), count };` -/
def Span.last {E : Int} (s : Span E) (count : Int) :
    Result (Span dynamic_extent) := do
  Expects (0 ≤ count ∧ count ≤ s.size)
  span_mk dynamic_extent
    (if count = 0 then s.data_ else s.data_.add (s.size - count)) count

/-- `subspan(index_type offset, index_type count = dynamic_extent)`:
`Expects((offset == 0 || offset > 0 && offset <= size()) &&
         (count == dynamic_extent || count >= 0 && offset + count <= size()));
 return { data() + offset,
          count == dynamic_extent ? size() - offset : count };` -/
def Span.subspan {E : Int} (s : Span E) (offset count : Int) :
    Result (Span dynamic_extent) := do
  Expects ((offset = 0 ∨ (0 < offset ∧ offset ≤ s.size)) ∧
           (count = dynamic_extent ∨ (0 ≤ count ∧ offset + count ≤ s.size)))
  span_mk dynamic_extent (s.data_.add offset)
    (if count = dynamic_extent then s.size - offset else count)

/-- `first<Count>()`: the compile-time form, returning
`span<element_type, Count>`. -/
def Span.firstT {E : Int} (Count : Int) (s : Span E) : Result (Span Count) := do
  Expects (0 ≤ Count ∧ Count ≤ s.size)
  span_mk Count s.data_ Count

/-- `last<Count>()`: the compile-time form, returning
`span<element_type, Count>`. -/
def Span.lastT {E : Int} (Count : Int) (s : Span E) : Result (Span Count) := do
  Expects (0 ≤ Count ∧ Count ≤ s.size)
  span_mk Count
    (if Count = 0 then s.data_ else s.data_.add (s.size - Count)) Count

/-- `subspan<Offset, Count = dynamic_extent>()`: the compile-time form,
returning `span<element_type, Count>`. -/
def Span.subspanT {E : Int} (Offset Count : Int) (s : Span E) :
    Result (Span Count) := do
  Expects ((Offset = 0 ∨ (0 < Offset ∧ Offset ≤ s.size)) ∧
           (Count = dynamic_extent ∨ (0 ≤ Count ∧ Offset + Count ≤ s.size)))
  span_mk Count (s.data_.add Offset)
    (if Count = dynamic_extent then s.size - Offset else Count)

/-- The set of element addresses a view refers to: `[data, data + size)`. -/
def Span.inRange {E : Int} (s : Span E) (a : Int) : Prop :=
  ∃ b, s.data_ = some b ∧ b ≤ a ∧ a < b + s.size

/-- The first view refers only to addresses the second view refers to. -/
def Span.within {E1 E2 : Int} (r : Span E1) (s : Span E2) : Prop :=
  ∀ a : Int, r.inRange a → s.inRange a

/-- A C++ element type as the conversion rules observe it: its identity
(`name`), `std::is_integral`, `std::is_pointer`, `sizeof`, `alignof` and
const-qualification.  `std::is_convertible` is language-level and enters as
an oracle parameter `conv` below. -/
structure CppType where
  name : String
  is_integral : Bool
  is_pointer : Bool
  sizeofT : Nat
  alignofT : Nat
  is_const : Bool
deriving DecidableEq

/-- `std::remove_cv_t`. -/
def remove_cv (T : CppType) : CppType := { T with is_const := false }

/-- The type `char`: the target of the first specialisation of
`is_allowed_element_type_conversion`. -/
def charTy : CppType :=
  { name := "char", is_integral := true, is_pointer := false,
    sizeofT := 1, alignofT := 1, is_const := false }

/-- The type `const char`: the target of the second specialisation. -/
def const_charTy : CppType := { charTy with is_const := true }

/-- `details::is_allowed_pointer_conversion<From, To>`. -/
def is_allowed_pointer_conversion (conv : CppType → CppType → Bool)
    (F T : CppType) : Bool :=
  F.is_pointer && T.is_pointer && conv F T

/-- `details::is_allowed_integral_conversion<From, To>`: both integral, of
identical size and alignment, with an implicit conversion between them. -/
def is_allowed_integral_conversion (conv : CppType → CppType → Bool)
    (F T : CppType) : Bool :=
  F.is_integral && T.is_integral && (F.sizeofT == T.sizeofT) &&
    (F.alignofT == T.alignofT) && conv F T

/-- `details::is_allowed_element_type_conversion<From, To>`: the primary
template (same type up to cv, allowed pointer conversion, or allowed
integral conversion), overridden by the `char` / `const char`
specialisations. -/
def is_allowed_element_type_conversion (conv : CppType → CppType → Bool)
    (F T : CppType) : Bool :=
  if T = charTy then !F.is_const
  else if T = const_charTy then true
  else decide (F = remove_cv T) || is_allowed_pointer_conversion conv F T ||
    is_allowed_integral_conversion conv F T

/-- The `enable_if` of span's converting constructor
(`span(const span<OtherElementType, OtherExtent>&)`): the element types
must differ and the conversion must be allowed. -/
def conversion_ctor_enabled (conv : CppType → CppType → Bool)
    (F T : CppType) : Bool :=
  !(decide (T = F)) && is_allowed_element_type_conversion conv F T

/-- Body of the converting constructor:
`storage_(reinterpret_cast<pointer>(other.data()), other.length())` —
the address is preserved, the count re-derived from the source. -/
def span_convert (E E2 : Int) (other : Span E2) : Result (Span E) :=
  storage_mk E other.data_ other.length

/-- Const-qualifying a type (used to pick a compatible distinct target). -/
def add_const (T : CppType) : CppType := { T with is_const := true }

/-- The type `int`. -/
def intTy : CppType :=
  { name := "int", is_integral := true, is_pointer := false,
    sizeofT := 4, alignofT := 4, is_const := false }

/-- The type `unsigned int`: same size and alignment as `int`. -/
def unsignedTy : CppType :=
  { name := "unsigned int", is_integral := true, is_pointer := false,
    sizeofT := 4, alignofT := 4, is_const := false }

/-! ### Basic lemmas about the embedding -/

theorem Expects_pos {p : Prop} [Decidable p] (h : p) :
    Expects p = Except.ok () := by
  simp [Expects, h]

theorem Expects_neg {p : Prop} [Decidable p] (h : ¬ p) :
    Expects p = Except.error ContractViolation.violation := by
  simp [Expects, h]

theorem size_dyn (s : Span dynamic_extent) : s.size = s.size_ := by
  simp [Span.size]

theorem size_fix {E : Int} (hE : E ≠ dynamic_extent) (s : Span E) :
    s.size = E := by
  simp [Span.size, hE]

theorem add_zero_ptr (p : Ptr) : p.add 0 = p := by
  cases p <;> simp [Ptr.add]

/-- Normal form of the storage constructor at dynamic extent. -/
theorem storage_mk_dyn (ptr : Ptr) (count : Int) :
    storage_mk dynamic_extent ptr count =
      if 0 ≤ count then Except.ok ⟨ptr, count⟩
      else Except.error ContractViolation.violation := by
  by_cases h : 0 ≤ count <;>
    simp [storage_mk, extent_ctor, Expects, h,
      Bind.bind, Except.bind, pure, Except.pure]

/-- Normal form of the storage constructor at a fixed extent. -/
theorem storage_mk_fix {E : Int} (hE : E ≠ dynamic_extent) (ptr : Ptr)
    (count : Int) :
    storage_mk E ptr count =
      if count = E then Except.ok ⟨ptr, E⟩
      else Except.error ContractViolation.violation := by
  by_cases h : count = E <;>
    simp [storage_mk, extent_ctor, Expects, hE, h,
      Bind.bind, Except.bind, pure, Except.pure]

/-- Normal form of the `(pointer, count)` constructor at dynamic extent:
the storage check `count >= 0` runs first, then the body check. -/
theorem span_mk_dyn (ptr : Ptr) (count : Int) :
    span_mk dynamic_extent ptr count =
      if 0 ≤ count ∧ ((ptr = none ∧ count = 0) ∨ (ptr ≠ none ∧ 0 ≤ count)) then
        Except.ok ⟨ptr, count⟩
      else Except.error ContractViolation.violation := by
  cases ptr with
  | none =>
      by_cases h : count = 0
      · subst h
        simp [span_mk, storage_mk_dyn, Expects,
          Bind.bind, Except.bind, pure, Except.pure]
      · by_cases h1 : 0 ≤ count <;>
          simp [span_mk, storage_mk_dyn, Expects, h, h1,
            Bind.bind, Except.bind, pure, Except.pure]
  | some a =>
      by_cases h1 : 0 ≤ count <;>
        simp [span_mk, storage_mk_dyn, Expects, h1,
          Bind.bind, Except.bind, pure, Except.pure]

/-- Normal form of the `(pointer, count)` constructor at a fixed extent:
the storage check `count == E` runs first, then the body check. -/
theorem span_mk_fix {E : Int} (hE : E ≠ dynamic_extent) (ptr : Ptr)
    (count : Int) :
    span_mk E ptr count =
      if count = E ∧ ((ptr = none ∧ count = 0) ∨ (ptr ≠ none ∧ 0 ≤ count)) then
        Except.ok ⟨ptr, E⟩
      else Except.error ContractViolation.violation := by
  by_cases h1 : count = E
  · subst h1
    cases ptr with
    | none =>
        by_cases h : count = 0
        · subst h
          simp [span_mk, storage_mk_fix hE, Expects,
            Bind.bind, Except.bind, pure, Except.pure]
        · by_cases h0 : 0 ≤ count <;>
            simp [span_mk, storage_mk_fix hE, Expects, h, h0,
              Bind.bind, Except.bind, pure, Except.pure]
    | some a =>
        by_cases h0 : 0 ≤ count <;>
          simp [span_mk, storage_mk_fix hE, Expects, h0,
            Bind.bind, Except.bind, pure, Except.pure]
  · simp [span_mk, storage_mk_fix hE, Expects, h1,
      Bind.bind, Except.bind, pure, Except.pure]

/-- Sequencing after a check: the continuation runs iff the check holds. -/
theorem Expects_bind_ok {α : Type} {p : Prop} [Decidable p] {k : Result α}
    {a : α} (h : (Expects p >>= fun _ => k) = Except.ok a) :
    p ∧ k = Except.ok a := by
  by_cases hp : p
  · rw [Expects_pos hp] at h
    simp only [Bind.bind, Except.bind] at h
    exact ⟨hp, h⟩
  · rw [Expects_neg hp] at h
    simp only [Bind.bind, Except.bind] at h
    exact absurd h (by simp)

/-- A successful `(pointer, count)` construction at dynamic extent,
forward direction. -/
theorem span_mk_dyn_ok (p : Ptr) (count : Int) (hc : 0 ≤ count)
    (hp : p = none → count = 0) :
    span_mk dynamic_extent p count = Except.ok ⟨p, count⟩ := by
  rw [span_mk_dyn, if_pos]
  refine ⟨hc, ?_⟩
  cases p with
  | none => exact Or.inl ⟨rfl, hp rfl⟩
  | some a => exact Or.inr ⟨by simp, hc⟩

/-- Inversion of a successful `(pointer, count)` construction at dynamic
extent. -/
theorem span_mk_dyn_ok_inv {p : Ptr} {count : Int} {r : Span dynamic_extent}
    (h : span_mk dynamic_extent p count = Except.ok r) :
    r = ⟨p, count⟩ ∧ 0 ≤ count ∧ (p = none → count = 0) := by
  rw [span_mk_dyn] at h
  by_cases hc : 0 ≤ count ∧
      ((p = none ∧ count = 0) ∨ (p ≠ none ∧ 0 ≤ count))
  · rw [if_pos hc] at h
    obtain rfl := Except.ok.inj h
    refine ⟨rfl, hc.1, fun hp => ?_⟩
    rcases hc.2 with ⟨_, h0⟩ | ⟨hne, _⟩
    · exact h0
    · exact absurd hp hne
  · rw [if_neg hc] at h
    exact Except.noConfusion h

/-- Inversion of a successful `(pointer, count)` construction at a fixed
extent. -/
theorem span_mk_fix_ok_inv {E : Int} (hE : E ≠ dynamic_extent) {p : Ptr}
    {count : Int} {r : Span E} (h : span_mk E p count = Except.ok r) :
    r = ⟨p, E⟩ ∧ count = E ∧ (p = none → count = 0) := by
  rw [span_mk_fix hE] at h
  by_cases hc : count = E ∧
      ((p = none ∧ count = 0) ∨ (p ≠ none ∧ 0 ≤ count))
  · rw [if_pos hc] at h
    obtain rfl := Except.ok.inj h
    refine ⟨rfl, hc.1, fun hp => ?_⟩
    rcases hc.2 with ⟨_, h0⟩ | ⟨hne, _⟩
    · exact h0
    · exact absurd hp hne
  · rw [if_neg hc] at h
    exact Except.noConfusion h

/-- Inversion of a successful `first(count)`. -/
theorem first_ok_inv {E : Int} {s : Span E} {count : Int}
    {r : Span dynamic_extent} (h : s.first count = Except.ok r) :
    0 ≤ count ∧ count ≤ s.size ∧ r = ⟨s.data_, count⟩ := by
  unfold Span.first at h
  obtain ⟨hP, h2⟩ := Expects_bind_ok h
  obtain ⟨rfl, _, _⟩ := span_mk_dyn_ok_inv h2
  exact ⟨hP.1, hP.2, rfl⟩

/-- Inversion of a successful `last(count)`. -/
theorem last_ok_inv {E : Int} {s : Span E} {count : Int}
    {r : Span dynamic_extent} (h : s.last count = Except.ok r) :
    0 ≤ count ∧ count ≤ s.size ∧
      r = ⟨if count = 0 then s.data_ else s.data_.add (s.size - count),
           count⟩ := by
  unfold Span.last at h
  obtain ⟨hP, h2⟩ := Expects_bind_ok h
  obtain ⟨rfl, _, _⟩ := span_mk_dyn_ok_inv h2
  exact ⟨hP.1, hP.2, rfl⟩

/-- Inversion of a successful `subspan(offset, count)`. -/
theorem subspan_ok_inv {E : Int} {s : Span E} {offset count : Int}
    {r : Span dynamic_extent} (h : s.subspan offset count = Except.ok r) :
    (offset = 0 ∨ (0 < offset ∧ offset ≤ s.size)) ∧
    (count = dynamic_extent ∨ (0 ≤ count ∧ offset + count ≤ s.size)) ∧
    r = ⟨s.data_.add offset,
         if count = dynamic_extent then s.size - offset else count⟩ := by
  unfold Span.subspan at h
  obtain ⟨hP, h2⟩ := Expects_bind_ok h
  obtain ⟨rfl, _, _⟩ := span_mk_dyn_ok_inv h2
  exact ⟨hP.1, hP.2, rfl⟩

/-- Inversion of a successful `first<Count>()`. -/
theorem firstT_ok_inv {E : Int} {Count : Int} {s : Span E} {r : Span Count}
    (h : s.firstT Count = Except.ok r) :
    0 ≤ Count ∧ Count ≤ s.size ∧ r = ⟨s.data_, Count⟩ := by
  unfold Span.firstT at h
  obtain ⟨hP, h2⟩ := Expects_bind_ok h
  have hC : Count ≠ dynamic_extent := by
    have := hP.1
    simp only [dynamic_extent]
    omega
  obtain ⟨rfl, _, _⟩ := span_mk_fix_ok_inv hC h2
  exact ⟨hP.1, hP.2, rfl⟩

/-- Inversion of a successful `last<Count>()`. -/
theorem lastT_ok_inv {E : Int} {Count : Int} {s : Span E} {r : Span Count}
    (h : s.lastT Count = Except.ok r) :
    0 ≤ Count ∧ Count ≤ s.size ∧
      r = ⟨if Count = 0 then s.data_ else s.data_.add (s.size - Count),
           Count⟩ := by
  unfold Span.lastT at h
  obtain ⟨hP, h2⟩ := Expects_bind_ok h
  have hC : Count ≠ dynamic_extent := by
    have := hP.1
    simp only [dynamic_extent]
    omega
  obtain ⟨rfl, _, _⟩ := span_mk_fix_ok_inv hC h2
  exact ⟨hP.1, hP.2, rfl⟩

/-- Inversion of a successful `subspan<Offset, Count>()`; the stored count
is `size() - Offset` for the dynamic sentinel and `Count` otherwise. -/
theorem subspanT_ok_inv {E : Int} {Offset Count : Int} {s : Span E}
    {r : Span Count} (h : s.subspanT Offset Count = Except.ok r) :
    (Offset = 0 ∨ (0 < Offset ∧ Offset ≤ s.size)) ∧
    (Count = dynamic_extent ∨ (0 ≤ Count ∧ Offset + Count ≤ s.size)) ∧
    r = ⟨s.data_.add Offset,
         if Count = dynamic_extent then s.size - Offset else Count⟩ := by
  unfold Span.subspanT at h
  obtain ⟨hP, h2⟩ := Expects_bind_ok h
  by_cases hC : Count = dynamic_extent
  · subst hC
    rw [if_pos rfl] at h2
    obtain ⟨rfl, _, _⟩ := span_mk_dyn_ok_inv h2
    exact ⟨hP.1, hP.2, by rw [if_pos rfl]⟩
  · rw [if_neg hC] at h2
    obtain ⟨rfl, _, _⟩ := span_mk_fix_ok_inv hC h2
    exact ⟨hP.1, hP.2, by rw [if_neg hC]⟩

theorem size_mk_self (E : Int) (p : Ptr) : Span.size (E := E) ⟨p, E⟩ = E := by
  by_cases hc : E = dynamic_extent <;> simp [Span.size, hc]

theorem size_mk_of (Count z : Int) (p : Ptr)
    (h : Count ≠ dynamic_extent → z = Count) :
    Span.size (E := Count) ⟨p, z⟩ = z := by
  by_cases hc : Count = dynamic_extent
  · simp [Span.size, hc]
  · simp [Span.size, hc, h hc]

/-! ### The claims -/

/-- C1: for every view `v` and index `i` with `0 <= i < v.size()`, `v[i]`
(and the synonymous call-with-index `v(i)`) returns a reference to the
`i`-th element of the underlying buffer — the address `base + i`, which
reads back the buffer's `i`-th element under any memory contents; for
`i < 0` or `i >= v.size()` the operation signals ContractViolation and no
element access occurs. -/
theorem c1_subscript_bounds (E : Int) (s : Span E) (base i : Int)
    (hd : s.data_ = some base) :
    (0 ≤ i ∧ i < s.size →
      s.subscript i = Except.ok (some (base + i)) ∧
      s.callIdx i = s.subscript i ∧
      ∀ (α : Type) (mem : Int → α),
        (s.subscript i).map (Ptr.read mem) =
          Except.ok (some (mem (base + i)))) ∧
    (i < 0 ∨ s.size ≤ i →
      s.subscript i = Except.error ContractViolation.violation ∧
      s.callIdx i = Except.error ContractViolation.violation) := by
  constructor
  · intro h
    have hok : s.subscript i = Except.ok (some (base + i)) := by
      simp [Span.subscript, Expects_pos h, hd, Ptr.add,
        Bind.bind, Except.bind, pure, Except.pure]
    refine ⟨hok, rfl, ?_⟩
    intro α mem
    rw [hok]
    simp [Except.map, Ptr.read]
  · intro h
    have hneg : ¬ (0 ≤ i ∧ i < s.size) := by omega
    have herr : s.subscript i = Except.error ContractViolation.violation := by
      simp [Span.subscript, Expects_neg hneg, Bind.bind, Except.bind]
    exact ⟨herr, herr⟩

/-- Witness for C1: the view at address 100 with 5 elements; index 2 is in
bounds and returns the address 102, index 7 is out of bounds. -/
theorem c1_subscript_bounds_witness :
    Span.subscript (E := dynamic_extent) ⟨some 100, 5⟩ 2 =
      Except.ok (some (100 + 2)) ∧
    Span.subscript (E := dynamic_extent) ⟨some 100, 5⟩ 7 =
      Except.error ContractViolation.violation := by
  have h2 := c1_subscript_bounds dynamic_extent ⟨some 100, 5⟩ 100 2 rfl
  have h7 := c1_subscript_bounds dynamic_extent ⟨some 100, 5⟩ 100 7 rfl
  exact ⟨(h2.1 (by decide)).1, (h7.2 (by decide)).1⟩

/-- C2: the `(pointer, count)` constructor (dynamic extent) signals
ContractViolation exactly when the precondition fails: it succeeds iff
(pointer null and count = 0) or (pointer non-null and count >= 0); on
success `size() = count` and `data()` is the given pointer; a null pointer
with count 3 violates, a null pointer with count 0 yields size 0. -/
theorem c2_ptr_count_ctor (ptr : Ptr) (count : Int) :
    (span_mk dynamic_extent ptr count =
        Except.error ContractViolation.violation ↔
      ¬ ((ptr = none ∧ count = 0) ∨ (ptr ≠ none ∧ 0 ≤ count))) ∧
    (∀ s : Span dynamic_extent,
      span_mk dynamic_extent ptr count = Except.ok s →
        s.size = count ∧ s.data_ = ptr) ∧
    span_mk dynamic_extent none 3 = Except.error ContractViolation.violation ∧
    (∃ s0 : Span dynamic_extent,
      span_mk dynamic_extent none 0 = Except.ok s0 ∧ s0.size = 0) := by
  have hP : ((ptr = none ∧ count = 0) ∨ (ptr ≠ none ∧ 0 ≤ count)) →
      0 ≤ count := by
    rintro (⟨h1, h2⟩ | ⟨h1, h2⟩)
    · subst h2; decide
    · exact h2
  refine ⟨?_, ?_, ?_, ?_⟩
  · rw [span_mk_dyn]
    by_cases hp : (ptr = none ∧ count = 0) ∨ (ptr ≠ none ∧ 0 ≤ count)
    · simp [hp, hP hp]
    · simp [hp]
  · intro s hs
    rw [span_mk_dyn] at hs
    by_cases hc : 0 ≤ count ∧
        ((ptr = none ∧ count = 0) ∨ (ptr ≠ none ∧ 0 ≤ count))
    · rw [if_pos hc] at hs
      obtain rfl := Except.ok.inj hs
      exact ⟨by simp [Span.size], rfl⟩
    · rw [if_neg hc] at hs
      exact Except.noConfusion hs
  · rfl
  · exact ⟨⟨none, 0⟩, rfl, by simp [Span.size]⟩

/-- C3: for every view `v` and `0 <= count <= v.size()`, `v.last(count)`
(and the compile-time form `last<N>()`) returns a view of the trailing
`count` elements: its `size()` is `count` and its `data()` is
`v.data() + (v.size() - count)` when `count > 0`; when `count = 0` the
returned view's `data()` equals `v.data()`, not an advanced pointer. -/
theorem c3_last_trailing {E : Int} (s : Span E) (base count : Int)
    (hd : s.data_ = some base) (h0 : 0 ≤ count) (h1 : count ≤ s.size) :
    (∃ r : Span dynamic_extent, s.last count = Except.ok r ∧
       r.size = count ∧
       r.data_ = if count = 0 then s.data_
                 else some (base + (s.size - count))) ∧
    (∃ r : Span count, s.lastT count = Except.ok r ∧
       r.size = count ∧
       r.data_ = if count = 0 then s.data_
                 else some (base + (s.size - count))) := by
  have hcd : count ≠ dynamic_extent := by
    simp only [dynamic_extent]; omega
  have hptr : (if count = 0 then s.data_ else s.data_.add (s.size - count)) =
      (if count = 0 then s.data_ else some (base + (s.size - count))) := by
    by_cases hc : count = 0 <;> simp [hc, hd, Ptr.add]
  have hnn : (if count = 0 then s.data_
              else some (base + (s.size - count))) = none → count = 0 := by
    by_cases hc : count = 0 <;> simp [hc, hd]
  constructor
  · refine ⟨⟨if count = 0 then s.data_
             else some (base + (s.size - count)), count⟩, ?_, by simp [Span.size], rfl⟩
    unfold Span.last
    rw [Expects_pos ⟨h0, h1⟩]
    simp only [Bind.bind, Except.bind]
    rw [hptr]
    exact span_mk_dyn_ok _ count h0 hnn
  · refine ⟨⟨if count = 0 then s.data_
             else some (base + (s.size - count)), count⟩, ?_,
        by simp [Span.size, hcd], rfl⟩
    unfold Span.lastT
    rw [Expects_pos ⟨h0, h1⟩]
    simp only [Bind.bind, Except.bind]
    rw [hptr, span_mk_fix hcd, if_pos]
    refine ⟨rfl, ?_⟩
    by_cases hc : count = 0
    · subst hc
      simp [hd]
    · exact Or.inr ⟨by simp [hc], h0⟩

/-- Witness for C3: the view at address 100 with 5 elements, `last(2)` and
`last<2>()` give a view of size 2 at address `100 + (5 - 2)`. -/
theorem c3_last_trailing_witness :
    (∃ r : Span dynamic_extent,
        Span.last (E := dynamic_extent) ⟨some 100, 5⟩ 2 = Except.ok r ∧
        r.size = 2 ∧
        r.data_ = if (2 : Int) = 0 then some 100
                  else some (100 + (5 - 2))) ∧
    (∃ r : Span 2,
        Span.lastT (E := dynamic_extent) 2 ⟨some 100, 5⟩ = Except.ok r ∧
        r.size = 2 ∧
        r.data_ = if (2 : Int) = 0 then some 100
                  else some (100 + (5 - 2))) :=
  c3_last_trailing (E := dynamic_extent) ⟨some 100, 5⟩ 100 2 rfl
    (by decide) (by decide)

/-- C6: for every view `v` and `0 <= count <= v.size()`, `v.first(count)`
(and the compile-time form `first<N>()`) returns the leading `count`
elements: its `data()` equals `v.data()`, its `size()` equals `count`, and
its elements equal the corresponding elements of `v`; for `count` outside
that range it signals ContractViolation; `first(v.size())` yields a view
equal in content to `v`. -/
theorem c6_first_leading {E : Int} (s : Span E) (base count : Int)
    (hd : s.data_ = some base) (h0 : 0 ≤ count) (h1 : count ≤ s.size) :
    (∃ r : Span dynamic_extent, s.first count = Except.ok r ∧
       r.data_ = s.data_ ∧ r.size = count ∧
       ∀ (α : Type) (mem : Int → α) (j : Int), r.nth mem j = s.nth mem j) ∧
    (∃ r : Span count, s.firstT count = Except.ok r ∧
       r.data_ = s.data_ ∧ r.size = count) ∧
    (∀ c : Int, c < 0 ∨ s.size < c →
       s.first c = Except.error ContractViolation.violation) ∧
    s.first s.size = Except.ok ⟨s.data_, s.size⟩ := by
  have hcd : count ≠ dynamic_extent := by
    simp only [dynamic_extent]; omega
  have hsz : 0 ≤ s.size := le_trans h0 h1
  have hnn : s.data_ ≠ none := by simp [hd]
  refine ⟨?_, ?_, ?_, ?_⟩
  · refine ⟨⟨s.data_, count⟩, ?_, rfl, by simp [Span.size],
        fun α mem j => rfl⟩
    unfold Span.first
    rw [Expects_pos ⟨h0, h1⟩]
    simp only [Bind.bind, Except.bind]
    exact span_mk_dyn_ok _ count h0 (fun h => absurd h hnn)
  · refine ⟨⟨s.data_, count⟩, ?_, rfl, by simp [Span.size, hcd]⟩
    unfold Span.firstT
    rw [Expects_pos ⟨h0, h1⟩]
    simp only [Bind.bind, Except.bind]
    rw [span_mk_fix hcd, if_pos ⟨rfl, Or.inr ⟨hnn, h0⟩⟩]
  · intro c hc
    unfold Span.first
    rw [Expects_neg (by omega)]
    simp only [Bind.bind, Except.bind]
  · unfold Span.first
    rw [Expects_pos ⟨hsz, le_refl _⟩]
    simp only [Bind.bind, Except.bind]
    exact span_mk_dyn_ok _ s.size hsz (fun h => absurd h hnn)

/-- Witness for C6: the view at address 100 with 5 elements; `first(2)` and
`first<2>()` keep the data pointer and have size 2, `first(7)` violates,
and `first(5)` reproduces the view. -/
theorem c6_first_leading_witness :
    (∃ r : Span dynamic_extent,
        Span.first (E := dynamic_extent) ⟨some 100, 5⟩ 2 = Except.ok r ∧
        r.data_ = some 100 ∧ r.size = 2 ∧
        ∀ (α : Type) (mem : Int → α) (j : Int),
          r.nth mem j = Span.nth (E := dynamic_extent) mem ⟨some 100, 5⟩ j) ∧
    (∃ r : Span 2,
        Span.firstT (E := dynamic_extent) 2 ⟨some 100, 5⟩ = Except.ok r ∧
        r.data_ = some 100 ∧ r.size = 2) ∧
    (∀ c : Int, c < 0 ∨ (5 : Int) < c →
        Span.first (E := dynamic_extent) ⟨some 100, 5⟩ c =
          Except.error ContractViolation.violation) ∧
    Span.first (E := dynamic_extent) ⟨some 100, 5⟩ 5 =
      Except.ok ⟨some 100, 5⟩ :=
  c6_first_leading (E := dynamic_extent) ⟨some 100, 5⟩ 100 2 rfl
    (by decide) (by decide)

/-- C5: `v.subspan(offset, count)` requires `0 <= offset <= v.size()` and
(`count` is the dynamic sentinel, or `0 <= count` and
`offset + count <= v.size()`) — the code's guard
`offset == 0 || offset > 0 && offset <= size()` is equivalent to that for
any well-formed view; when `count` is the dynamic sentinel the result has
`size() = v.size() - offset`; and `v.subspan(0, v.size())` is the identity
on content (same `data()`, same `size()`). -/
theorem c5_subspan_postconditions {E : Int} (s : Span E) (offset count : Int)
    (hnull : s.data_ = none → s.size = 0) (hwf : 0 ≤ s.size)
    (hoff : 0 ≤ offset ∧ offset ≤ s.size)
    (hcnt : count = dynamic_extent ∨ (0 ≤ count ∧ offset + count ≤ s.size)) :
    (∀ o : Int, (o = 0 ∨ (0 < o ∧ o ≤ s.size)) ↔ (0 ≤ o ∧ o ≤ s.size)) ∧
    (∃ r : Span dynamic_extent, s.subspan offset count = Except.ok r ∧
       r.size = (if count = dynamic_extent then s.size - offset
                 else count)) ∧
    (count = dynamic_extent →
       s.subspan offset count =
         Except.ok ⟨s.data_.add offset, s.size - offset⟩) ∧
    (∀ o c : Int,
       ¬ ((o = 0 ∨ (0 < o ∧ o ≤ s.size)) ∧
          (c = dynamic_extent ∨ (0 ≤ c ∧ o + c ≤ s.size))) →
       s.subspan o c = Except.error ContractViolation.violation) ∧
    s.subspan 0 s.size = Except.ok ⟨s.data_, s.size⟩ := by
  have hE : (offset = 0 ∨ (0 < offset ∧ offset ≤ s.size)) ∧
      (count = dynamic_extent ∨ (0 ≤ count ∧ offset + count ≤ s.size)) := by
    refine ⟨by omega, hcnt⟩
  have hcnt0 : 0 ≤ (if count = dynamic_extent then s.size - offset
                    else count) := by
    by_cases hc : count = dynamic_extent <;> simp [hc] <;> omega
  have hnn : s.data_.add offset = none →
      (if count = dynamic_extent then s.size - offset else count) = 0 := by
    intro hadd
    have hdn : s.data_ = none := by
      cases hs : s.data_ with
      | none => rfl
      | some a => rw [hs] at hadd; exact Option.noConfusion hadd
    have hz := hnull hdn
    by_cases hc : count = dynamic_extent <;> simp [hc] <;> omega
  have hok : s.subspan offset count =
      Except.ok ⟨s.data_.add offset,
        if count = dynamic_extent then s.size - offset else count⟩ := by
    unfold Span.subspan
    rw [Expects_pos hE]
    simp only [Bind.bind, Except.bind]
    exact span_mk_dyn_ok _ _ hcnt0 hnn
  refine ⟨fun o => by omega, ⟨_, hok, by simp [Span.size]⟩, ?_, ?_, ?_⟩
  · intro hc
    rw [hok, hc, if_pos rfl]
  · intro o c hc
    unfold Span.subspan
    rw [Expects_neg hc]
    simp only [Bind.bind, Except.bind]
  · have hEid : ((0 : Int) = 0 ∨ ((0 : Int) < 0 ∧ (0 : Int) ≤ s.size)) ∧
        (s.size = dynamic_extent ∨
          (0 ≤ s.size ∧ (0 : Int) + s.size ≤ s.size)) := by
      refine ⟨Or.inl rfl, Or.inr ⟨hwf, by omega⟩⟩
    unfold Span.subspan
    rw [Expects_pos hEid]
    simp only [Bind.bind, Except.bind]
    have hsd : s.size ≠ dynamic_extent := by
      simp only [dynamic_extent]; omega
    rw [add_zero_ptr, if_neg hsd]
    exact span_mk_dyn_ok _ _ hwf (fun h => hnull h)

/-- Witness for C5: the view at address 100 with 5 elements;
`subspan(1, dynamic_extent)` succeeds with size `5 - 1`. -/
theorem c5_subspan_witness :
    Span.subspan (E := dynamic_extent) ⟨some 100, 5⟩ 1 dynamic_extent =
      Except.ok ⟨Ptr.add (some 100) 1, 5 - 1⟩ :=
  (c5_subspan_postconditions (E := dynamic_extent) ⟨some 100, 5⟩ 1
      dynamic_extent (by decide) (by decide) (by decide)
      (Or.inl rfl)).2.2.1 rfl

/-- C9: slicing only narrows.  For every view `v` and every sub-view
operation (`first`, `last`, `subspan`, in both runtime and compile-time
forms), whenever the operation returns a view (its precondition check
passed), the returned view's referenced range `[data, data + size)` is
contained in `v`'s range `[v.data, v.data + v.size)`. -/
theorem c9_slicing_narrows {E : Int} (s : Span E) :
    (∀ (count : Int) (r : Span dynamic_extent),
       s.first count = Except.ok r → r.within s) ∧
    (∀ (count : Int) (r : Span dynamic_extent),
       s.last count = Except.ok r → r.within s) ∧
    (∀ (offset count : Int) (r : Span dynamic_extent),
       s.subspan offset count = Except.ok r → r.within s) ∧
    (∀ (Count : Int) (r : Span Count),
       s.firstT Count = Except.ok r → r.within s) ∧
    (∀ (Count : Int) (r : Span Count),
       s.lastT Count = Except.ok r → r.within s) ∧
    (∀ (Offset Count : Int) (r : Span Count),
       s.subspanT Offset Count = Except.ok r → r.within s) := by
  refine ⟨?_, ?_, ?_, ?_, ?_, ?_⟩
  · intro count r h
    obtain ⟨h0, h1, rfl⟩ := first_ok_inv h
    intro a hin
    simp only [Span.inRange] at hin ⊢
    obtain ⟨b, hb, ha1, ha2⟩ := hin
    simp only [size_dyn] at ha2
    exact ⟨b, hb, ha1, by omega⟩
  · intro count r h
    obtain ⟨h0, h1, rfl⟩ := last_ok_inv h
    intro a hin
    simp only [Span.inRange] at hin ⊢
    obtain ⟨b, hb, ha1, ha2⟩ := hin
    simp only [size_dyn] at ha2
    by_cases hc : count = 0
    · exact absurd ha2 (by omega)
    · rw [if_neg hc] at hb
      cases hs : s.data_ with
      | none => rw [hs] at hb; simp [Ptr.add] at hb
      | some a0 =>
          rw [hs] at hb
          simp only [Ptr.add, Option.some.injEq] at hb
          exact ⟨a0, rfl, by omega, by omega⟩
  · intro offset count r h
    obtain ⟨ho, hc, rfl⟩ := subspan_ok_inv h
    intro a hin
    simp only [Span.inRange] at hin ⊢
    obtain ⟨b, hb, ha1, ha2⟩ := hin
    simp only [size_dyn] at ha2
    cases hs : s.data_ with
    | none => rw [hs] at hb; simp [Ptr.add] at hb
    | some a0 =>
        rw [hs] at hb
        simp only [Ptr.add, Option.some.injEq] at hb
        by_cases hcd : count = dynamic_extent
        · rw [if_pos hcd] at ha2
          exact ⟨a0, rfl, by omega, by omega⟩
        · rw [if_neg hcd] at ha2
          exact ⟨a0, rfl, by omega, by omega⟩
  · intro Count r h
    obtain ⟨h0, h1, rfl⟩ := firstT_ok_inv h
    intro a hin
    simp only [Span.inRange] at hin ⊢
    obtain ⟨b, hb, ha1, ha2⟩ := hin
    rw [size_mk_self] at ha2
    exact ⟨b, hb, ha1, by omega⟩
  · intro Count r h
    obtain ⟨h0, h1, rfl⟩ := lastT_ok_inv h
    intro a hin
    simp only [Span.inRange] at hin ⊢
    obtain ⟨b, hb, ha1, ha2⟩ := hin
    rw [size_mk_self] at ha2
    by_cases hc : Count = 0
    · exact absurd ha2 (by omega)
    · rw [if_neg hc] at hb
      cases hs : s.data_ with
      | none => rw [hs] at hb; simp [Ptr.add] at hb
      | some a0 =>
          rw [hs] at hb
          simp only [Ptr.add, Option.some.injEq] at hb
          exact ⟨a0, rfl, by omega, by omega⟩
  · intro Offset Count r h
    obtain ⟨ho, hc, rfl⟩ := subspanT_ok_inv h
    intro a hin
    simp only [Span.inRange] at hin ⊢
    obtain ⟨b, hb, ha1, ha2⟩ := hin
    rw [size_mk_of Count _ _ (fun hcd => by rw [if_neg hcd])] at ha2
    cases hs : s.data_ with
    | none => rw [hs] at hb; simp [Ptr.add] at hb
    | some a0 =>
        rw [hs] at hb
        simp only [Ptr.add, Option.some.injEq] at hb
        by_cases hcd : Count = dynamic_extent
        · rw [if_pos hcd] at ha2
          exact ⟨a0, rfl, by omega, by omega⟩
        · rw [if_neg hcd] at ha2
          exact ⟨a0, rfl, by omega, by omega⟩

/-- C10: constructing a view from a (first, one-past-last) pointer pair
with the last pointer before the first gives a negative
`std::distance`, which fails the dynamic extent's `size >= 0` check and
signals ContractViolation; consequently no view this constructor produces
ever has a negative `size()`. -/
theorem c10_ptr_pair_negative {a b : Int} (h : b < a) :
    span_from_ptrs dynamic_extent (some a) (some b) =
      Except.error ContractViolation.violation ∧
    ∀ (f l : Ptr) (r : Span dynamic_extent),
      span_from_ptrs dynamic_extent f l = Except.ok r → 0 ≤ r.size := by
  constructor
  · unfold span_from_ptrs
    rw [storage_mk_dyn, if_neg]
    simp only [Ptr.distance]
    omega
  · intro f l r hr
    unfold span_from_ptrs at hr
    rw [storage_mk_dyn] at hr
    by_cases hc : 0 ≤ Ptr.distance f l
    · rw [if_pos hc] at hr
      obtain rfl := Except.ok.inj hr
      rw [size_dyn]
      exact hc
    · rw [if_neg hc] at hr
      exact Except.noConfusion hr

/-- Witness for C10: first pointer at 5, last pointer at 2. -/
theorem c10_ptr_pair_negative_witness :
    span_from_ptrs dynamic_extent (some 5) (some 2) =
      Except.error ContractViolation.violation :=
  (c10_ptr_pair_negative (by decide)).1

/-- C7: the fixed extent's constructor from a runtime count signals
ContractViolation exactly when the count differs from the fixed extent
`E`; on success the stored extent is `E`, and `size()` of a fixed-extent
view always returns `E` — the equality is enforced once at construction
(the `static_assert` additionally forces `0 <= E`). -/
theorem c7_fixed_extent_check (E : Int) (hE : E ≠ dynamic_extent)
    (_hpos : 0 ≤ E) (count : Int) :
    (extent_ctor E count = Except.error ContractViolation.violation ↔
      count ≠ E) ∧
    (extent_ctor E count = Except.ok E ↔ count = E) ∧
    (∀ (ptr : Ptr) (r : Span E),
      span_mk E ptr count = Except.ok r → r.size = E) ∧
    (∀ s : Span E, s.size = E) := by
  have hval : ∀ c : Int, extent_ctor E c =
      if c = E then Except.ok E
      else Except.error ContractViolation.violation := by
    intro c
    unfold extent_ctor
    rw [if_neg hE]
    by_cases hc : c = E
    · rw [Expects_pos hc]
      simp [Bind.bind, Except.bind, pure, Except.pure, hc]
    · rw [Expects_neg hc]
      simp [Bind.bind, Except.bind, hc]
  refine ⟨?_, ?_, fun ptr r _ => size_fix hE r, fun s => size_fix hE s⟩
  · rw [hval]
    by_cases hc : count = E <;> simp [hc]
  · rw [hval]
    by_cases hc : count = E <;> simp [hc]

/-- Witness for C7: fixed extent 3 rejects count 5 and accepts count 3. -/
theorem c7_fixed_extent_check_witness :
    (extent_ctor 3 5 = Except.error ContractViolation.violation ↔
      (5 : Int) ≠ 3) ∧
    (extent_ctor 3 5 = Except.ok 3 ↔ (5 : Int) = 3) ∧
    (∀ (ptr : Ptr) (r : Span 3),
      span_mk 3 ptr 5 = Except.ok r → r.size = 3) ∧
    (∀ s : Span 3, s.size = 3) :=
  c7_fixed_extent_check 3 (by decide) (by decide) 5

/-- C8: converting a view with a mutable element type to a view of a
different integral element type of identical size and alignment (with an
implicit conversion between them) is accepted by the converting
constructor's gate, and the result keeps the same address and the same
element count. -/
theorem c8_integral_reinterpretation (conv : CppType → CppType → Bool)
    (F T : CppType) (hne : T ≠ F) (hmut : F.is_const = false)
    (hFi : F.is_integral = true) (hTi : T.is_integral = true)
    (hsz : F.sizeofT = T.sizeofT) (hal : F.alignofT = T.alignofT)
    (hconv : conv F T = true)
    (E2 : Int) (s : Span E2) (hwf : 0 ≤ s.size) :
    conversion_ctor_enabled conv F T = true ∧
    (∃ r : Span dynamic_extent,
        span_convert dynamic_extent E2 s = Except.ok r ∧
        r.data_ = s.data_ ∧ r.size = s.size) := by
  constructor
  · unfold conversion_ctor_enabled
    rw [Bool.and_eq_true]
    refine ⟨by simp [hne], ?_⟩
    unfold is_allowed_element_type_conversion
    by_cases h1 : T = charTy
    · rw [if_pos h1, hmut]
      rfl
    · rw [if_neg h1]
      by_cases h2 : T = const_charTy
      · rw [if_pos h2]
      · rw [if_neg h2]
        have : is_allowed_integral_conversion conv F T = true := by
          unfold is_allowed_integral_conversion
          simp [hFi, hTi, hsz, hal, hconv]
        simp [this]
  · refine ⟨⟨s.data_, s.size⟩, ?_, rfl, size_dyn _⟩
    unfold span_convert Span.length
    rw [storage_mk_dyn, if_pos hwf]

/-- Witness for C8: converting an `int` view at address 100 with 5 elements
to an `unsigned int` view (same size and alignment, convertible). -/
theorem c8_integral_reinterpretation_witness :
    conversion_ctor_enabled (fun _ _ => true) intTy unsignedTy = true ∧
    (∃ r : Span dynamic_extent,
        span_convert dynamic_extent dynamic_extent ⟨some 100, 5⟩ =
          Except.ok r ∧
        r.data_ = some 100 ∧ r.size = 5) :=
  c8_integral_reinterpretation (fun _ _ => true) intTy unsignedTy
    (by decide) rfl rfl rfl rfl rfl rfl dynamic_extent ⟨some 100, 5⟩
    (by decide)

/-- C4 counterexample: the converting constructor's gate requires the two
element types to differ (`!is_same<element_type, OtherElementType>`), so a
fixed-extent view cannot be converted to a dynamic-extent view of the
*same* element type — even with a maximally permissive convertibility
oracle the gate evaluates to `false` for `int → int`. -/
theorem c4_same_type_conversion_rejected :
    conversion_ctor_enabled (fun _ _ => true) intTy intTy = false := by decide

/-- C4 (amended): constructing a view from a fixed-size array of length `N`
yields the fixed-extent view over the array with `size() = N` and no
runtime check; the converting constructor only accepts a *different* but
compatible element type — e.g. the const-qualified one — and converting
through it to a dynamic-extent view succeeds (its `size >= 0` check
passes) with `size() = N` and `data()` unchanged. -/
theorem c4_fixed_to_dynamic_roundtrip (conv : CppType → CppType → Bool)
    (F : CppType) (hmut : F.is_const = false) (base : Int) (N : Nat) :
    conversion_ctor_enabled conv F (add_const F) = true ∧
    span_from_array (N : Int) base N = (⟨some base, (N : Int)⟩ : Span (N : Int)) ∧
    Span.size (E := (N : Int)) (span_from_array (N : Int) base N) = (N : Int) ∧
    (∃ r : Span dynamic_extent,
        span_convert dynamic_extent (N : Int)
            (span_from_array (N : Int) base N) = Except.ok r ∧
        r.size = (N : Int) ∧ r.data_ = some base) := by
  have hNd : ((N : Int)) ≠ dynamic_extent := by
    simp only [dynamic_extent]
    omega
  have hne : add_const F ≠ F := by
    intro h
    have h2 := congrArg CppType.is_const h
    simp [add_const, hmut] at h2
  have hAC : add_const F ≠ charTy := by
    intro h
    have h2 := congrArg CppType.is_const h
    simp [add_const, charTy] at h2
  have hrm : remove_cv (add_const F) = F := by
    cases F
    simp_all [add_const, remove_cv]
  have harr : span_from_array (N : Int) base N =
      (⟨some base, (N : Int)⟩ : Span (N : Int)) := by
    unfold span_from_array storage_mk_ext
    rw [if_neg hNd]
  refine ⟨?_, harr, ?_, ?_⟩
  · unfold conversion_ctor_enabled
    rw [Bool.and_eq_true]
    refine ⟨by simp [hne], ?_⟩
    unfold is_allowed_element_type_conversion
    rw [if_neg hAC]
    by_cases h2 : add_const F = const_charTy
    · rw [if_pos h2]
    · rw [if_neg h2]
      simp [hrm]
  · rw [harr, size_mk_self]
  · refine ⟨⟨some base, (N : Int)⟩, ?_, size_dyn _, rfl⟩
    unfold span_convert Span.length
    rw [harr, size_mk_self, storage_mk_dyn, if_pos (by omega)]

/-- Witness for C4 (amended): an `int[5]` array at address 100, viewed with
fixed extent 5 and converted to a dynamic-extent `const int` view. -/
theorem c4_fixed_to_dynamic_roundtrip_witness :
    conversion_ctor_enabled (fun _ _ => true) intTy (add_const intTy) = true ∧
    span_from_array ((5 : Nat) : Int) 100 5 =
      (⟨some 100, ((5 : Nat) : Int)⟩ : Span ((5 : Nat) : Int)) ∧
    Span.size (E := ((5 : Nat) : Int))
        (span_from_array ((5 : Nat) : Int) 100 5) = ((5 : Nat) : Int) ∧
    (∃ r : Span dynamic_extent,
        span_convert dynamic_extent ((5 : Nat) : Int)
            (span_from_array ((5 : Nat) : Int) 100 5) = Except.ok r ∧
        r.size = ((5 : Nat) : Int) ∧ r.data_ = some 100) :=
  c4_fixed_to_dynamic_roundtrip (fun _ _ => true) intTy rfl 100 5

end GSL
